import Mathlib

/-!
Shallow embedding of `src/app.py`, the single-page human-evaluation app for
comparing two machine-generated peer reviews.  The embedding covers:

* the Python value shapes that flow through the script (`PyVal`: the JSON
  payloads are strings, dicts, or `None`);
* `parse_review` (regex section splitting, modelled by first-occurrence
  substring search over `List Char`);
* the render-time and submit-time text extraction for a variant payload;
* the widget keys, the submit-button block (validation loop and record
  construction) and `save_results`;
* `get_paper_details` (collection resolution);
* the per-paper session-state display-order binding.

The `timestamp` column (`datetime.now().isoformat()`) is an external clock
value; no claim mentions it, so `Record` omits it.  Everything else follows
the source line by line.
-/

/-- A Python value as it occurs in this script's data flow: `None`, a string,
or a JSON-style dict (association list, first binding wins as in a Python
dict lookup). -/
inductive PyVal where
  | none
  | str (s : String)
  | dict (d : List (String × PyVal))

/-- Python truthiness for the values above: `None` is falsy, a string is
truthy iff non-empty, a dict is truthy iff non-empty. -/
def pyTruthy : PyVal → Bool
  | PyVal.none => false
  | PyVal.str s => !(s == "")
  | PyVal.dict d => !d.isEmpty

/-- `d.get(k, dflt)` on a Python dict modelled as an association list. -/
def dictGetD (d : List (String × PyVal)) (k : String) (dflt : PyVal) : PyVal :=
  match d.find? (fun p => p.1 == k) with
  | Option.none => dflt
  | Option.some p => p.2

/-- Index of the first occurrence of `n` as a contiguous substring of `h`
(`None` if absent).  This models where `re.search` anchors a pattern that
begins with the literal `n`. -/
def findSub (n : List Char) : List Char → Option Nat
  | [] => if n.isPrefixOf [] then Option.some 0 else Option.none
  | c :: t =>
      if n.isPrefixOf (c :: t) then Option.some 0
      else (findSub n t).map (· + 1)

/-- The characters Python's `str.strip()` removes (ASCII whitespace; the
review texts contain no other Unicode space characters). -/
def pySpace (c : Char) : Bool :=
  c == ' ' || c == '\t' || c == '\n' || c == '\r' || c == '\x0b' || c == '\x0c'

/-- Python `str.strip()`. -/
def pyStrip (l : List Char) : List Char :=
  ((l.dropWhile pySpace).reverse.dropWhile pySpace).reverse

/-- Python `content.split('\n-')`: split on each non-overlapping occurrence
of the two-character separator, scanning left to right. -/
def splitNlDash : List Char → List (List Char)
  | [] => [[]]
  | [c] => [[c]]
  | c1 :: c2 :: t =>
      if c1 = '\n' ∧ c2 = '-' then [] :: splitNlDash t
      else
        match splitNlDash (c2 :: t) with
        | [] => [[c1]]
        | g :: gs => (c1 :: g) :: gs

/-- The section markers of `parse_review` (the literal parts of its four
regexes). -/
def sumM : List Char := "**Summary**".data

/-- Literal marker of the Strengths regex. -/
def strM : List Char := "**Strengths**".data

/-- Literal marker of the Weaknesses regex. -/
def weakM : List Char := "**Weaknesses**".data

/-- Literal marker of the Questions regex. -/
def quesM : List Char := "**Questions**".data

/-- Given the text that follows a section marker, the lazily-matched group:
everything up to the first occurrence of the next marker `endM`, or the whole
rest when `endM` does not occur (the `\Z` alternative of the lookahead). -/
def optRegion (endM : List Char) (rest : List Char) : List Char :=
  match findSub endM rest with
  | Option.none => rest
  | Option.some m => rest.take m

/-- `re.search(r'\*\*X\*\*(.*?)(?=\*\*Y\*\*|\Z)', text, re.DOTALL)`: group 1,
or `None` when `startM` does not occur in the text. -/
def sectionContent (startM endM : List Char) (cs : List Char) : Option (List Char) :=
  (findSub startM cs).map (fun i => optRegion endM (cs.drop (i + startM.length)))

/-- `re.search(r'\*\*X\*\*(.*)', text, re.DOTALL)`: group 1 is everything
after the first occurrence of the marker. -/
def lastContent (startM : List Char) (cs : List Char) : Option (List Char) :=
  (findSub startM cs).map (fun i => cs.drop (i + startM.length))

/-- `point.strip().lstrip('-').strip()` from the bullet-cleaning loop. -/
def cleanPoint (p : List Char) : List Char :=
  pyStrip ((pyStrip p).dropWhile (· == '-'))

/-- The bullet-splitting applied to a section's matched content:
`content.strip()`, split on `'\n-'`, clean each point, keep non-empty ones in
order. -/
def bulletPoints (c : List Char) : List (List Char) :=
  ((splitNlDash (pyStrip c)).map cleanPoint).filter (fun q => !q.isEmpty)

/-- The `"Summary"` entry: appended only when the match exists and its
stripped group is non-empty (`if summary_match and summary_match.group(1).strip():`). -/
def summaryList (cs : List Char) : List (List Char) :=
  match sectionContent sumM strM cs with
  | Option.none => []
  | Option.some c =>
      let t := pyStrip c
      if t = [] then [] else [t]

/-- A bullet section entry: empty when the marker is missing, otherwise the
cleaned points of its content. -/
def sectionList (startM endM : List Char) (cs : List Char) : List (List Char) :=
  match sectionContent startM endM cs with
  | Option.none => []
  | Option.some c => bulletPoints c

/-- The Questions section (its regex has no end marker). -/
def questionsList (cs : List Char) : List (List Char) :=
  match lastContent quesM cs with
  | Option.none => []
  | Option.some c => bulletPoints c

/-- The dict returned by `parse_review`; it always carries all four keys, so
it is a structure. -/
structure ParsedReview where
  summary : List String
  strengths : List String
  weaknesses : List String
  questions : List String
deriving DecidableEq

/-- `parse_review(review_text)`: non-string input yields the placeholder
review; a string is split into the four sections by the regexes. -/
def parse_review : PyVal → ParsedReview
  | PyVal.str s =>
      let cs := s.data
      { summary := (summaryList cs).map String.mk
        strengths := (sectionList strM weakM cs).map String.mk
        weaknesses := (sectionList weakM quesM cs).map String.mk
        questions := (questionsList cs).map String.mk }
  | _ =>
      { summary := ["Review not available."]
        strengths := []
        weaknesses := []
        questions := [] }

/-- Render-time text extraction (lines 245-250): start from `""`, for a dict
take `raw.get("inference_review","") or raw.get("prediction","")`, for a
string take it as is. -/
def extractRender (raw : PyVal) : PyVal :=
  match raw with
  | PyVal.dict d =>
      let a := dictGetD d "inference_review" (PyVal.str "")
      if pyTruthy a then a else dictGetD d "prediction" (PyVal.str "")
  | PyVal.str s => PyVal.str s
  | _ => PyVal.str ""

/-- Submit-time text extraction (line 301):
`raw_sub.get("inference_review", "") if isinstance(raw_sub, dict) else raw_sub`. -/
def extractSubmit (raw : PyVal) : PyVal :=
  match raw with
  | PyVal.dict d => dictGetD d "inference_review" (PyVal.str "")
  | x => x

/-- The key of a Summary rating selectbox: `f"{paper_id}_{r_type}_Summary"`. -/
def summaryKey (paperId rType : String) : String :=
  paperId ++ "_" ++ rType ++ "_Summary"

/-- The key of a bullet-point rating selectbox:
`f"{paper_id}_{r_type}_{section}_{i}"`. -/
def pointKey (paperId rType sec : String) (i : Nat) : String :=
  paperId ++ "_" ++ rType ++ "_" ++ sec ++ "_" ++ toString i

/-- The selectbox options; index 0 is the non-selectable sentinel. -/
def GRADING_OPTIONS : List String :=
  ["Select...", "Completely Disagree", "Mostly Disagree", "Mostly Agree", "Completely Agree"]

/-- `not p_val or p_val == "Select..."`: a control value is unset when the
session state holds nothing (Python `None`), an empty string, or the
sentinel. -/
def unsetVal (v : Option String) : Bool :=
  match v with
  | Option.none => true
  | Option.some s => s == "" || s == "Select..."

/-- One row of the results log.  `sectionName` carries the `section` column
(`section` is a Lean keyword); the `timestamp` column, an external clock
read, is omitted — no claim refers to it. -/
structure Record where
  user : String
  paper_id : String
  review_type : String
  sectionName : String
  point_index : Nat
  point_text : String
  rating : String
deriving DecidableEq

/-- `save_results`: append the new rows to the log (header handling is file
I/O and does not change the row content). -/
def save_results (log newRecords : List Record) : List Record :=
  log ++ newRecords

/-- The inner point loop of the submit block for one section: walk the
parsed points with their indices; at the first unset control set
`valid = False` and `break` (no further rows from this section), otherwise
append a row per point. -/
def pointsRecords (st : String → Option String) (user paperId rType sec : String) :
    List String → Nat → List Record × Bool
  | [], _ => ([], true)
  | txt :: rest, i =>
      let v := st (pointKey paperId rType sec i)
      if unsetVal v then ([], false)
      else
        let r := pointsRecords st user paperId rType sec rest (i + 1)
        (⟨user, paperId, rType, sec, i, txt, v.getD ""⟩ :: r.1, r.2)

/-- Outcome of processing one variant inside the submit loop. -/
inductive VarResult where
  | unsetSummary
  | crash
  | ok (recs : List Record) (valid : Bool)
deriving DecidableEq

/-- One iteration of `for r_type in ['5_3','5_5']`: re-parse the submit-time
text; if the Summary control is unset, `valid=False; break`.  Otherwise build
the Summary row — `parsed_sub.get("Summary", [""])[0]` is `head?` of the
parsed Summary list because `parse_review` always returns the `"Summary"`
key, so the `[""]` default is dead and an empty list raises `IndexError`
(the `crash` outcome).  Then run the three section loops; Python continues
into later sections even after a section turned `valid` off, so all three
row lists are accumulated and validity is their conjunction. -/
def processVariant (st : String → Option String) (user paperId rType : String)
    (raw : PyVal) : VarResult :=
  let parsed := parse_review (extractSubmit raw)
  let sVal := st (summaryKey paperId rType)
  if unsetVal sVal then VarResult.unsetSummary
  else
    match parsed.summary.head? with
    | Option.none => VarResult.crash
    | Option.some t =>
        let sRec : Record := ⟨user, paperId, rType, "Summary", 0, t, sVal.getD ""⟩
        let rS := pointsRecords st user paperId rType "Strengths" parsed.strengths 0
        let rW := pointsRecords st user paperId rType "Weaknesses" parsed.weaknesses 0
        let rQ := pointsRecords st user paperId rType "Questions" parsed.questions 0
        VarResult.ok (sRec :: (rS.1 ++ rW.1 ++ rQ.1)) (rS.2 && rW.2 && rQ.2)

/-- Result of the whole submit-button block. -/
inductive SubmitOutcome where
  | crash
  | incomplete
  | saved (records : List Record)
deriving DecidableEq

/-- The submit-button block: process variant `5_3`, then (only if it was
fully valid — `if not valid: break`) variant `5_5`; when both are valid,
`save_results(records)` receives the concatenation, otherwise the
incompleteness error is shown and nothing is written.  An `IndexError`
while building a Summary row aborts the block (`crash`). -/
def submitAll (st : String → Option String) (user paperId : String)
    (raw53 raw55 : PyVal) : SubmitOutcome :=
  match processVariant st user paperId "5_3" raw53 with
  | VarResult.unsetSummary => SubmitOutcome.incomplete
  | VarResult.crash => SubmitOutcome.crash
  | VarResult.ok recs1 valid1 =>
      if valid1 then
        match processVariant st user paperId "5_5" raw55 with
        | VarResult.unsetSummary => SubmitOutcome.incomplete
        | VarResult.crash => SubmitOutcome.crash
        | VarResult.ok recs2 valid2 =>
            if valid2 then SubmitOutcome.saved (recs1 ++ recs2)
            else SubmitOutcome.incomplete
      else SubmitOutcome.incomplete

/-- Rows the submit block appends to the results log: the batch on success,
nothing on the incomplete path and nothing when the block raised. -/
def appendedRows (log : List Record) (o : SubmitOutcome) : List Record :=
  match o with
  | SubmitOutcome.saved recs => save_results log recs
  | _ => log

/-- The user-facing message the submit block itself emits: `st.success` on
save, `st.error` on incompleteness, nothing on the raised-exception path
(the `st.error` call is never reached). -/
def submitMessage (o : SubmitOutcome) : Option String :=
  match o with
  | SubmitOutcome.saved _ => Option.some "Saved successfully!"
  | SubmitOutcome.incomplete =>
      Option.some "Please ensure all fields (Summary and Points) are rated for both Review sets."
  | SubmitOutcome.crash => Option.none

/-- The code expression `parsed_sub.get("Summary", [""])[0]` used for the
Summary row's `point_text`: the key is always present, so the `.get` default
never applies and the indexing is `head?` (with `None` standing for the
`IndexError` on an empty list). -/
def summaryPointText (p : ParsedReview) : Option String :=
  p.summary.head?

/-- What one review tab shows the user, split into the texts/labels that are
rendered as visible words and the widget keys attached to the selectboxes
(keys are part of the page the frontend receives). -/
structure SlotOutput where
  texts : List String
  keys : List String
deriving DecidableEq

/-- The visible texts of one bullet section: the `##### {section}` header and
one `- {pt}` line plus the `"Rate Point"` selectbox label per point; nothing
when the section has no points. -/
def sectionTexts (sec : String) (pts : List String) : List String :=
  if pts.isEmpty then []
  else ("##### " ++ sec) :: pts.map (fun pt => "- " ++ pt) ++ pts.map (fun _ => "Rate Point")

/-- The widget keys of one bullet section: one per point (none when the
section is empty, matching the `if points:` guard). -/
def sectionKeys (paperId rType sec : String) (n : Nat) : List String :=
  (List.range n).map (pointKey paperId rType sec)

/-- One iteration of the render loop (lines 240-291) for the tab labelled
`slotLabel`, bound to variant `rType` with payload `raw`: extract the text,
parse it, and emit the summary block (fallback `"No summary found."` when
the parsed Summary is empty) followed by the non-empty bullet sections. -/
def renderSlot (slotLabel paperId rType : String) (raw : PyVal) : SlotOutput :=
  let parsed := parse_review (extractRender raw)
  let sText := match parsed.summary with
    | [] => "No summary found."
    | t :: _ => t
  { texts := [slotLabel, "##### Summary", sText, "Is this summary accurate?"] ++
      sectionTexts "Strengths" parsed.strengths ++
      sectionTexts "Weaknesses" parsed.weaknesses ++
      sectionTexts "Questions" parsed.questions
    keys := summaryKey paperId rType ::
      (sectionKeys paperId rType "Strengths" parsed.strengths.length ++
       sectionKeys paperId rType "Weaknesses" parsed.weaknesses.length ++
       sectionKeys paperId rType "Questions" parsed.questions.length) }

/-- The four cached JSON datasets: two review variants for each of the two
collections; a map sends a paper id to its payload when the id is a key of
the dataset. -/
structure DataStore where
  colm53 : String → Option PyVal
  colm55 : String → Option PyVal
  neur53 : String → Option PyVal
  neur55 : String → Option PyVal

/-- The fields returned by `get_paper_details`. -/
structure PaperDetails where
  pdfPath : Option String
  review53 : Option PyVal
  review55 : Option PyVal
  source : Option String

/-- PDF path `COLM_PDF_DIR / f"{paper_id}.pdf"`. -/
def colmPdfPath (paperId : String) : String :=
  "pdfs_colm/" ++ paperId ++ ".pdf"

/-- PDF path `NEURIPS_PDF_DIR / f"{paper_id}.pdf"`. -/
def neuripsPdfPath (paperId : String) : String :=
  "pdfs_neurips/" ++ paperId ++ ".pdf"

/-- `get_paper_details(paper_id, data_store)`: check COLM's two datasets
first, then NeurIPS, else the all-`None` tuple. -/
def get_paper_details (paperId : String) (ds : DataStore) : PaperDetails :=
  if (ds.colm53 paperId).isSome || (ds.colm55 paperId).isSome then
    ⟨Option.some (colmPdfPath paperId), ds.colm53 paperId, ds.colm55 paperId,
      Option.some "COLM"⟩
  else if (ds.neur53 paperId).isSome || (ds.neur55 paperId).isSome then
    ⟨Option.some (neuripsPdfPath paperId), ds.neur53 paperId, ds.neur55 paperId,
      Option.some "NeurIPS"⟩
  else ⟨Option.none, Option.none, Option.none, Option.none⟩

/-- The session-state key `f"order_{selected_paper_id}"`. -/
def sessionOrderKey (paperId : String) : String :=
  "order_" ++ paperId

/-- The blind-order binding (lines 230-236): on a miss, store a shuffled copy
of `['5_3','5_5']` under the paper's key; either way `review_order` is the
stored list.  `shuffled` is the output of `random.shuffle`, passed in as a
parameter.  Returns the updated session state and `review_order`. -/
def bindOrder (st : String → Option (List String)) (paperId : String)
    (shuffled : List String) : (String → Option (List String)) × List String :=
  match st (sessionOrderKey paperId) with
  | Option.some o => (st, o)
  | Option.none =>
      (fun k => if k = sessionOrderKey paperId then Option.some shuffled else st k,
       shuffled)

/-!  Concrete inputs used by the claim witnesses and counterexamples. -/

/-- The end-to-end example text from the specification. -/
def exC8 : String :=
  "**Summary**\nA study.\n**Strengths**\n- Point 1\n- Point 2\n**Weaknesses**\n**Questions**\n- Q1"

/-- A text containing all four markers in canonical order whose Summary
section is present but empty. -/
def exC5 : String :=
  "**Summary****Strengths**\n- a\n**Weaknesses**x**Questions**"

/-- Variant payload whose text field parses to an empty Summary (an empty
review string); `if not review_53 and not review_55` only halts when both
variants are falsy, so this payload reaches the form when the other variant
is non-empty. -/
def rawEmpty53 : PyVal := PyVal.str ""

/-- A normal payload for the other variant. -/
def rawC3_55 : PyVal := PyVal.str "**Summary**\nGood summary.\n**Strengths**\n- A point"

/-- Session state with every rendered control of the `rawEmpty53`/`rawC3_55`
paper set to a real agreement level.  (Rendering `rawEmpty53` produces only a
Summary selectbox; `rawC3_55` produces a Summary and one Strengths
selectbox.) -/
def stateAllSet : String → Option String := fun k =>
  if k = "P1_5_3_Summary" ∨ k = "P1_5_5_Summary" ∨ k = "P1_5_5_Strengths_0" then
    Option.some "Mostly Agree"
  else Option.none

/-- Session state in which the expected Strengths point of variant `5_5` is
left unset while both Summary controls are set. -/
def stateUnsetPoint : String → Option String := fun k =>
  if k = "P1_5_3_Summary" ∨ k = "P1_5_5_Summary" then Option.some "Mostly Agree"
  else Option.none

/-- A dict payload carrying only the `"prediction"` text field (no
`"inference_review"` key). -/
def rawPredOnly : PyVal :=
  PyVal.dict [("prediction", PyVal.str "**Summary**\nX")]

/-- A data store in which a paper id occurs in all four datasets (so in both
collections). -/
def dsBoth : DataStore :=
  ⟨fun _ => Option.some (PyVal.str "c53"), fun _ => Option.some (PyVal.str "c55"),
   fun _ => Option.some (PyVal.str "n53"), fun _ => Option.some (PyVal.str "n55")⟩

/-- A data store in which ids occur only in the NeurIPS `5_3` dataset. -/
def dsNeurOnly : DataStore :=
  ⟨fun _ => Option.none, fun _ => Option.none,
   fun _ => Option.some (PyVal.str "n53"), fun _ => Option.none⟩

/-- The empty data store. -/
def dsEmpty : DataStore :=
  ⟨fun _ => Option.none, fun _ => Option.none, fun _ => Option.none, fun _ => Option.none⟩

/-- The list a parsed review holds for a bullet-section name. -/
def sectionOf (p : ParsedReview) (sec : String) : List String :=
  if sec = "Strengths" then p.strengths
  else if sec = "Weaknesses" then p.weaknesses
  else if sec = "Questions" then p.questions
  else []

/-- Every rating control the submit-time parse of `raw` expects for this
variant holds a real (non-sentinel, non-empty) value: the Summary control and
one control per parsed bullet point. -/
def expectedControlsSet (st : String → Option String) (paperId rType : String)
    (raw : PyVal) : Prop :=
  unsetVal (st (summaryKey paperId rType)) = false ∧
  ∀ sec ∈ (["Strengths", "Weaknesses", "Questions"] : List String),
    ∀ j < (sectionOf (parse_review (extractSubmit raw)) sec).length,
      unsetVal (st (pointKey paperId rType sec j)) = false

/-!  Groundwork lemmas about the parsing primitives. -/

/-- A hit of `findSub` really is an occurrence: the needle starts at the
reported index. -/
theorem findSub_isPrefixOf (n : List Char) :
    ∀ (h : List Char) (j : Nat), findSub n h = Option.some j →
      n.isPrefixOf (h.drop j) = true := by
  intro h
  induction h with
  | nil =>
      intro j hEq
      simp only [findSub] at hEq
      split at hEq
      · cases hEq
        simpa using ‹n.isPrefixOf ([] : List Char) = true›
      · cases hEq
  | cons c t ih =>
      intro j hEq
      simp only [findSub] at hEq
      split at hEq
      · cases hEq
        simpa using ‹n.isPrefixOf (c :: t) = true›
      · rcases Option.map_eq_some'.mp hEq with ⟨j', hj', rfl⟩
        rw [List.drop_succ_cons]
        exact ih j' hj'

/-- A hit of `findSub` gives a contiguous-substring occurrence. -/
theorem findSub_substring (n h : List Char) (j : Nat)
    (hEq : findSub n h = Option.some j) : n <:+: h := by
  have h1 := findSub_isPrefixOf n h j hEq
  have h2 : n <+: h.drop j := by
    rw [← List.isPrefixOf_iff_prefix]
    exact h1
  exact h2.isInfix.trans (List.drop_suffix j h).isInfix

/-- When the needle occurs nowhere as a contiguous substring, `findSub`
misses. -/
theorem findSub_eq_none (n h : List Char) (hn : ¬ n <:+: h) :
    findSub n h = Option.none := by
  cases hf : findSub n h with
  | none => rfl
  | some j => exact absurd (findSub_substring n h j hf) hn

/-- Stripping only removes characters at the two ends. -/
theorem pyStrip_substring (l : List Char) : pyStrip l <:+: l := by
  unfold pyStrip
  have h1 : l.dropWhile pySpace <:+ l := List.dropWhile_suffix pySpace
  have h2 : (l.dropWhile pySpace).reverse.dropWhile pySpace <:+
      (l.dropWhile pySpace).reverse := List.dropWhile_suffix pySpace
  have h3 : ((l.dropWhile pySpace).reverse.dropWhile pySpace).reverse <+:
      l.dropWhile pySpace := by
    rw [← List.reverse_suffix]
    simpa using h2
  exact h3.isInfix.trans h1.isInfix

/-- A list that strips to nothing consists of whitespace only. -/
theorem pyStrip_all_space (l : List Char) (hs : pyStrip l = []) :
    ∀ c ∈ l, pySpace c = true := by
  unfold pyStrip at hs
  have hb : (l.dropWhile pySpace).reverse.dropWhile pySpace = [] := by
    simpa using congrArg List.reverse hs
  have ha : ∀ c ∈ (l.dropWhile pySpace).reverse, pySpace c = true :=
    List.dropWhile_eq_nil_iff.mp hb
  intro c hc
  rw [← List.takeWhile_append_dropWhile pySpace l] at hc
  rcases List.mem_append.mp hc with h | h
  · exact List.mem_takeWhile_imp h
  · exact ha c (List.mem_reverse.mpr h)

/-- Shape of `splitNlDash`: the result is non-empty, its first fragment is a
prefix of the input and every later fragment is a contiguous substring. -/
theorem splitNlDash_spec : (l : List Char) →
    ∃ g gs, splitNlDash l = g :: gs ∧ g <+: l ∧ ∀ f ∈ gs, f <:+: l
  | [] => ⟨[], [], rfl, List.nil_prefix, by simp⟩
  | [c] => ⟨[c], [], rfl, List.prefix_refl _, by simp⟩
  | c1 :: c2 :: t => by
      by_cases hsep : c1 = '\n' ∧ c2 = '-'
      · obtain ⟨g, gs, hEq, hg, hgs⟩ := splitNlDash_spec t
        refine ⟨[], g :: gs, ?_, List.nil_prefix, ?_⟩
        · simp [splitNlDash, hsep, hEq]
        · intro f hf
          have ht : ∀ x : List Char, x <:+: t → x <:+: c1 :: c2 :: t := fun x hx =>
            List.infix_cons (List.infix_cons hx)
          rcases List.mem_cons.mp hf with h | h
          · have hft : f <:+: t := by
              rw [h]
              exact hg.isInfix
            exact ht f hft
          · exact ht f (hgs f h)
      · obtain ⟨g, gs, hEq, hg, hgs⟩ := splitNlDash_spec (c2 :: t)
        refine ⟨c1 :: g, gs, ?_, ?_, ?_⟩
        · simp [splitNlDash, hsep, hEq]
        · exact List.cons_prefix_cons.mpr ⟨rfl, hg⟩
        · intro f hf
          exact List.infix_cons (hgs f hf)

/-- Every fragment produced by the separator split is a contiguous substring
of the input. -/
theorem splitNlDash_substring (l f : List Char) (hf : f ∈ splitNlDash l) :
    f <:+: l := by
  obtain ⟨g, gs, hEq, hg, hgs⟩ := splitNlDash_spec l
  rw [hEq] at hf
  rcases List.mem_cons.mp hf with h | h
  · subst h
    exact hg.isInfix
  · exact hgs f h

/-- Cleaning a bullet fragment only removes characters at its ends. -/
theorem cleanPoint_substring (p : List Char) : cleanPoint p <:+: p := by
  unfold cleanPoint
  have h1 := pyStrip_substring ((pyStrip p).dropWhile (· == '-'))
  have h2 : (pyStrip p).dropWhile (· == '-') <:+ pyStrip p :=
    List.dropWhile_suffix _
  exact h1.trans (h2.isInfix.trans (pyStrip_substring p))

/-- Every bullet point of a section is a contiguous substring of that
section's matched content. -/
theorem bulletPoints_substring (c q : List Char) (hq : q ∈ bulletPoints c) :
    q <:+: c := by
  unfold bulletPoints at hq
  have hq' : q ∈ (splitNlDash (pyStrip c)).map cleanPoint :=
    (List.mem_filter.mp hq).1
  rcases List.mem_map.mp hq' with ⟨f, hf, hqf⟩
  subst hqf
  exact (cleanPoint_substring f).trans
    ((splitNlDash_substring _ f hf).trans (pyStrip_substring c))

/-- When a section's point loop completes validly it has appended one row per
parsed point, and every control of the section was set. -/
theorem pointsRecords_count (st : String → Option String)
    (user paperId rType sec : String) :
    ∀ (pts : List String) (i : Nat),
      (pointsRecords st user paperId rType sec pts i).2 = true →
      (pointsRecords st user paperId rType sec pts i).1.length = pts.length ∧
      ∀ j < pts.length, unsetVal (st (pointKey paperId rType sec (i + j))) = false := by
  intro pts
  induction pts with
  | nil =>
      intro i _
      refine ⟨rfl, ?_⟩
      intro j hj
      simp at hj
  | cons txt rest ih =>
      intro i h
      by_cases hu : unsetVal (st (pointKey paperId rType sec i)) = true
      · exfalso
        unfold pointsRecords at h
        rw [if_pos hu] at h
        cases h
      · have hu' : unsetVal (st (pointKey paperId rType sec i)) = false := by
          simpa using hu
        unfold pointsRecords at h ⊢
        rw [if_neg hu] at h ⊢
        have hr : (pointsRecords st user paperId rType sec rest (i + 1)).2 = true := h
        obtain ⟨hlen, hset⟩ := ih (i + 1) hr
        refine ⟨?_, ?_⟩
        · simp [hlen]
        · intro j hj
          cases j with
          | zero => simpa using hu'
          | succ j' =>
              have h2 := hset j' (by simpa using hj)
              have he : i + 1 + j' = i + (j' + 1) := by omega
              rw [he] at h2
              exact h2

/-!  Claim theorems. -/

/-- C8: the specification's end-to-end example text parses to
Summary=["A study."], Strengths=["Point 1","Point 2"], Weaknesses=[],
Questions=["Q1"]. -/
theorem c8_parse_example :
    parse_review (PyVal.str exC8) =
      ⟨["A study."], ["Point 1", "Point 2"], [], ["Q1"]⟩ := by
  decide

/-- C4 is a code bug: when a variant's submit-time text parses to an empty
Summary list (here the empty review string), the `point_text` lookup
`parsed_sub.get("Summary", [""])[0]` yields no string — the `"Summary"` key
is always present, so the `[""]` default is dead and indexing the empty list
raises `IndexError`, contrary to the claim that the lookup always yields a
string. -/
theorem c4_summary_lookup_raises :
    (parse_review (PyVal.str "")).summary = [] ∧
    summaryPointText (parse_review (PyVal.str "")) = Option.none := by
  decide

/-- C1 counterexample: the render-time and submit-time text extractions
disagree, so the two parses differ — for a dict payload carrying only a
`"prediction"` field (render falls back to it, submit does not), and for an
absent payload (render parses `""`, submit parses `None` and gets the
placeholder). -/
theorem c1_counterexample :
    parse_review (extractRender rawPredOnly) ≠
      parse_review (extractSubmit rawPredOnly) ∧
    parse_review (extractRender PyVal.none) ≠
      parse_review (extractSubmit PyVal.none) := by
  decide

/-- C1 amended: the render-time and submit-time parses agree exactly for the
payloads on which both extractions read the same text: a string payload, or
a dict payload whose `"inference_review"` entry is truthy. -/
theorem c1_amended (raw : PyVal)
    (h : (∃ s, raw = PyVal.str s) ∨
      (∃ d, raw = PyVal.dict d ∧
        pyTruthy (dictGetD d "inference_review" (PyVal.str "")) = true)) :
    parse_review (extractRender raw) = parse_review (extractSubmit raw) := by
  rcases h with ⟨s, rfl⟩ | ⟨d, rfl, hd⟩
  · rfl
  · simp [extractRender, extractSubmit, hd]

/-- C1 witness: the amended equivalence at a concrete string payload. -/
theorem c1_witness :
    parse_review (extractRender (PyVal.str "abc")) =
      parse_review (extractSubmit (PyVal.str "abc")) :=
  c1_amended (PyVal.str "abc") (Or.inl ⟨"abc", rfl⟩)

/-- C6 counterexample: the widget keys sent to the frontend are not
independent of the underlying variant identifier — the Summary selectbox key
of a slot literally embeds `5_3` or `5_5`. -/
theorem c6_counterexample :
    (renderSlot "Review Set A" "P1" "5_3" (PyVal.str "")).keys ≠
      (renderSlot "Review Set A" "P1" "5_5" (PyVal.str "")).keys ∧
    (renderSlot "Review Set A" "P1" "5_3" (PyVal.str "")).keys =
      ["P1_5_3_Summary"] := by
  decide

/-- C6 amended: the rendered texts and labels of a slot (tab title, headers,
summary text, point texts, selectbox labels) are independent of which variant
identifier the slot is bound to; only the widget keys depend on it. -/
theorem c6_amended (slotLabel paperId rType rType' : String) (raw : PyVal) :
    (renderSlot slotLabel paperId rType raw).texts =
      (renderSlot slotLabel paperId rType' raw).texts :=
  rfl

/-- C10: the display-order binding is chosen on first access (the shuffled
list is stored and returned) and any subsequent access returns the same
binding with the session state unchanged. -/
theorem c10_order_binding_idempotent (st : String → Option (List String))
    (paperId : String) (sh1 sh2 : List String) :
    (st (sessionOrderKey paperId) = Option.none →
      (bindOrder st paperId sh1).2 = sh1) ∧
    bindOrder (bindOrder st paperId sh1).1 paperId sh2 =
      bindOrder st paperId sh1 := by
  constructor
  · intro h
    simp [bindOrder, h]
  · cases h : st (sessionOrderKey paperId) with
    | some o => simp [bindOrder, h]
    | none => simp [bindOrder, h]

/-- C10 witness: the binding behaviour on an initially empty session. -/
theorem c10_witness :
    (bindOrder (fun _ => Option.none) "P1" ["5_3", "5_5"]).2 = ["5_3", "5_5"] ∧
    bindOrder (bindOrder (fun _ => Option.none) "P1" ["5_3", "5_5"]).1 "P1"
        ["5_5", "5_3"] =
      bindOrder (fun _ => Option.none) "P1" ["5_3", "5_5"] :=
  ⟨(c10_order_binding_idempotent (fun _ => Option.none) "P1" ["5_3", "5_5"]
      ["5_5", "5_3"]).1 rfl,
   (c10_order_binding_idempotent (fun _ => Option.none) "P1" ["5_3", "5_5"]
      ["5_5", "5_3"]).2⟩

/-- C7: `get_paper_details` checks COLM's two datasets first and NeurIPS only
when COLM misses; the matching collection supplies the PDF path and both of
its (possibly absent) variant payloads, and a miss in both collections gives
the all-`None` tuple.  The COLM branch does not look at the NeurIPS store, so
an id present in both collections resolves to COLM. -/
theorem c7_resolution_order (ds : DataStore) (pid : String) :
    ((ds.colm53 pid).isSome = true ∨ (ds.colm55 pid).isSome = true →
      get_paper_details pid ds =
        ⟨Option.some (colmPdfPath pid), ds.colm53 pid, ds.colm55 pid,
          Option.some "COLM"⟩) ∧
    (ds.colm53 pid = Option.none → ds.colm55 pid = Option.none →
      ((ds.neur53 pid).isSome = true ∨ (ds.neur55 pid).isSome = true) →
      get_paper_details pid ds =
        ⟨Option.some (neuripsPdfPath pid), ds.neur53 pid, ds.neur55 pid,
          Option.some "NeurIPS"⟩) ∧
    (ds.colm53 pid = Option.none → ds.colm55 pid = Option.none →
      ds.neur53 pid = Option.none → ds.neur55 pid = Option.none →
      get_paper_details pid ds =
        ⟨Option.none, Option.none, Option.none, Option.none⟩) := by
  refine ⟨?_, ?_, ?_⟩
  · intro h
    have hb : ((ds.colm53 pid).isSome || (ds.colm55 pid).isSome) = true := by
      rcases h with h | h <;> simp [h]
    simp [get_paper_details, hb]
  · intro h1 h2 h3
    have hb : ((ds.neur53 pid).isSome || (ds.neur55 pid).isSome) = true := by
      rcases h3 with h | h <;> simp [h]
    simp [get_paper_details, h1, h2, hb]
  · intro h1 h2 h3 h4
    simp [get_paper_details, h1, h2, h3, h4]

/-- C7 witness: an id present in both collections resolves to COLM; an id
present only in NeurIPS resolves there; an id present nowhere yields the
all-`None` signal. -/
theorem c7_witness :
    get_paper_details "X" dsBoth =
      ⟨Option.some (colmPdfPath "X"), dsBoth.colm53 "X", dsBoth.colm55 "X",
        Option.some "COLM"⟩ ∧
    get_paper_details "X" dsNeurOnly =
      ⟨Option.some (neuripsPdfPath "X"), dsNeurOnly.neur53 "X",
        dsNeurOnly.neur55 "X", Option.some "NeurIPS"⟩ ∧
    get_paper_details "X" dsEmpty =
      ⟨Option.none, Option.none, Option.none, Option.none⟩ :=
  ⟨(c7_resolution_order dsBoth "X").1 (Or.inl rfl),
   (c7_resolution_order dsNeurOnly "X").2.1 rfl rfl (Or.inl rfl),
   (c7_resolution_order dsEmpty "X").2.2 rfl rfl rfl rfl⟩

/-- C9: a non-string input parses to exactly the placeholder Summary with all
bullet sections empty, and a string containing none of the four section
markers parses to four empty sections with no placeholder substituted. -/
theorem c9_parser_fallbacks :
    (∀ v : PyVal, (∀ s, v ≠ PyVal.str s) →
      parse_review v = ⟨["Review not available."], [], [], []⟩) ∧
    (∀ s : String, ¬ sumM <:+: s.data → ¬ strM <:+: s.data →
      ¬ weakM <:+: s.data → ¬ quesM <:+: s.data →
      parse_review (PyVal.str s) = ⟨[], [], [], []⟩) := by
  constructor
  · intro v hv
    cases v with
    | none => rfl
    | str s => exact absurd rfl (hv s)
    | dict d => rfl
  · intro s h1 h2 h3 h4
    have e1 := findSub_eq_none sumM s.data h1
    have e2 := findSub_eq_none strM s.data h2
    have e3 := findSub_eq_none weakM s.data h3
    have e4 := findSub_eq_none quesM s.data h4
    simp [parse_review, summaryList, sectionList, questionsList,
      sectionContent, lastContent, e1, e2, e3, e4]

/-- C9 witness: the placeholder at the `None` payload, and the all-empty
parse of a marker-free string. -/
theorem c9_witness :
    parse_review PyVal.none = ⟨["Review not available."], [], [], []⟩ ∧
    parse_review (PyVal.str "hello") = ⟨[], [], [], []⟩ :=
  ⟨c9_parser_fallbacks.1 PyVal.none (fun _ h => PyVal.noConfusion h),
   c9_parser_fallbacks.2 "hello" (by decide) (by decide) (by decide) (by decide)⟩

/-- C2 is a code bug on its reporting half: with the Strengths point of
variant `5_5` left unset (an expected control, as the submit-time parse of
that variant shows), zero rows are appended — but no incompleteness message
is reported, because building the Summary row of the empty variant `5_3`
raises `IndexError` before validation reaches the unset control.  The spec's
all-or-nothing invariant promises the user is told to complete the form. -/
theorem c2_unset_point_no_message :
    unsetVal (stateUnsetPoint (pointKey "P1" "5_5" "Strengths" 0)) = true ∧
    (parse_review (extractSubmit rawC3_55)).strengths = ["A point"] ∧
    submitAll stateUnsetPoint "u1" "P1" rawEmpty53 rawC3_55 =
      SubmitOutcome.crash ∧
    appendedRows [] (submitAll stateUnsetPoint "u1" "P1" rawEmpty53 rawC3_55) = [] ∧
    submitMessage (submitAll stateUnsetPoint "u1" "P1" rawEmpty53 rawC3_55) =
      Option.none := by
  decide

/-- C3 is a code bug: every expected control is set to a real agreement level
(variant `5_3` parses to no sections, so its only expected control is its
Summary; variant `5_5` expects its Summary and one Strengths point), yet the
submission appends zero rows instead of the promised
(1 + 0 + 0 + 0) + (1 + 1 + 0 + 0) = 3: building the Summary row of the
empty variant raises `IndexError`. -/
theorem c3_all_set_submission_raises :
    (parse_review (extractSubmit rawEmpty53)) = ⟨[], [], [], []⟩ ∧
    (parse_review (extractSubmit rawC3_55)) =
      ⟨["Good summary."], ["A point"], [], []⟩ ∧
    unsetVal (stateAllSet (summaryKey "P1" "5_3")) = false ∧
    unsetVal (stateAllSet (summaryKey "P1" "5_5")) = false ∧
    unsetVal (stateAllSet (pointKey "P1" "5_5" "Strengths" 0)) = false ∧
    submitAll stateAllSet "u1" "P1" rawEmpty53 rawC3_55 = SubmitOutcome.crash ∧
    appendedRows [] (submitAll stateAllSet "u1" "P1" rawEmpty53 rawC3_55) = [] := by
  decide

/-- C5 counterexample: a text containing all four markers, in canonical order
(first occurrences at indices 0, 11, 29, 44), whose parsed Summary is
nevertheless empty, because only whitespace separates the Summary and
Strengths markers — refuting the claim's unconditional non-empty-Summary
half. -/
theorem c5_counterexample :
    (findSub sumM exC5.data = Option.some 0 ∧
     findSub strM exC5.data = Option.some 11 ∧
     findSub weakM exC5.data = Option.some 29 ∧
     findSub quesM exC5.data = Option.some 44) ∧
    (parse_review (PyVal.str exC5)).summary = [] := by
  decide

/-- C5 amended: when the Summary and Strengths markers occur and the lazily
matched Summary group (`optRegion`) holds at least one non-whitespace
character, the parsed Summary is non-empty; and whenever the Weaknesses
marker occurs after the Strengths marker (at offset `j` of the tail), every
parsed Strengths point is a contiguous substring of the text strictly
between the two markers — the last conjunct pins `j` as the exact start of
the `**Weaknesses**` marker, so no content at or after that marker can
appear in the Strengths list. -/
theorem c5_amended (s : String) (k i j : Nat)
    (hsum : findSub sumM s.data = Option.some k)
    (hstr : findSub strM s.data = Option.some i)
    (hweak : findSub weakM (s.data.drop (i + strM.length)) = Option.some j)
    (hnb : ∃ c ∈ optRegion strM (s.data.drop (k + sumM.length)), pySpace c = false) :
    (parse_review (PyVal.str s)).summary ≠ [] ∧
    (∀ p ∈ (parse_review (PyVal.str s)).strengths,
      p.data <:+: (s.data.drop (i + strM.length)).take j) ∧
    weakM.isPrefixOf ((s.data.drop (i + strM.length)).drop j) = true := by
  refine ⟨?_, ?_, ?_⟩
  · obtain ⟨c, hc, hcs⟩ := hnb
    have hregion : sectionContent sumM strM s.data =
        Option.some (optRegion strM (s.data.drop (k + sumM.length))) := by
      simp [sectionContent, hsum]
    have hne : ¬ pyStrip (optRegion strM (s.data.drop (k + sumM.length))) = [] := by
      intro h0
      have hall := pyStrip_all_space _ h0 c hc
      rw [hall] at hcs
      cases hcs
    have hSL : summaryList s.data =
        [pyStrip (optRegion strM (s.data.drop (k + sumM.length)))] := by
      unfold summaryList
      rw [hregion]
      simp [hne]
    simp [parse_review, hSL]
  · intro p hp
    have hcontent : sectionContent strM weakM s.data =
        Option.some ((s.data.drop (i + strM.length)).take j) := by
      simp [sectionContent, optRegion, hstr, hweak]
    have hSL : sectionList strM weakM s.data =
        bulletPoints ((s.data.drop (i + strM.length)).take j) := by
      unfold sectionList
      rw [hcontent]
    have hp' : p ∈ (sectionList strM weakM s.data).map String.mk := hp
    rcases List.mem_map.mp hp' with ⟨q, hq, hqp⟩
    have hpd : p.data = q := by
      rw [← hqp]
    rw [hpd]
    rw [hSL] at hq
    exact bulletPoints_substring _ q hq
  · exact findSub_isPrefixOf weakM _ j hweak

/-- C5 witness: the amended statement at the specification's example text
(markers at 0 and 21, the Weaknesses marker 21 characters into the tail). -/
theorem c5_witness :
    (parse_review (PyVal.str exC8)).summary ≠ [] ∧
    (∀ p ∈ (parse_review (PyVal.str exC8)).strengths,
      p.data <:+: (exC8.data.drop (21 + strM.length)).take 21) ∧
    weakM.isPrefixOf ((exC8.data.drop (21 + strM.length)).drop 21) = true :=
  c5_amended exC8 0 21 21 (by decide) (by decide) (by decide) (by decide)

/-!  Supporting theorems about the submit block as a whole.  They document
that, apart from the `IndexError` path exposed above, the validator behaves
as specified: a successful save presupposes that every expected control of
both variants was set, and writes exactly one row per Summary plus one per
parsed bullet point. -/

/-- A variant that comes out of the loop fully valid had its Summary control
and every per-point control set, and contributed exactly
`1 + strengths + weaknesses + questions` rows. -/
theorem processVariant_ok_valid (st : String → Option String)
    (user paperId rType : String) (raw : PyVal) (recs : List Record)
    (h : processVariant st user paperId rType raw = VarResult.ok recs true) :
    expectedControlsSet st paperId rType raw ∧
    recs.length = 1 + (parse_review (extractSubmit raw)).strengths.length +
      (parse_review (extractSubmit raw)).weaknesses.length +
      (parse_review (extractSubmit raw)).questions.length := by
  unfold processVariant at h
  by_cases hu : unsetVal (st (summaryKey paperId rType)) = true
  · rw [if_pos hu] at h
    cases h
  · have hu' : unsetVal (st (summaryKey paperId rType)) = false := by simpa using hu
    rw [if_neg hu] at h
    cases hh : (parse_review (extractSubmit raw)).summary.head? with
    | none =>
        rw [hh] at h
        cases h
    | some t =>
        rw [hh] at h
        simp only [VarResult.ok.injEq] at h
        obtain ⟨hrecs, hvalid⟩ := h
        simp only [Bool.and_eq_true] at hvalid
        obtain ⟨⟨hSv, hWv⟩, hQv⟩ := hvalid
        obtain ⟨hSlen, hSset⟩ := pointsRecords_count st user paperId rType "Strengths"
          (parse_review (extractSubmit raw)).strengths 0 hSv
        obtain ⟨hWlen, hWset⟩ := pointsRecords_count st user paperId rType "Weaknesses"
          (parse_review (extractSubmit raw)).weaknesses 0 hWv
        obtain ⟨hQlen, hQset⟩ := pointsRecords_count st user paperId rType "Questions"
          (parse_review (extractSubmit raw)).questions 0 hQv
        refine ⟨⟨hu', ?_⟩, ?_⟩
        · intro sec hsec j hj
          have hsec' : sec = "Strengths" ∨ sec = "Weaknesses" ∨ sec = "Questions" := by
            simpa using hsec
          rcases hsec' with rfl | rfl | rfl
          · simpa using hSset j (by simpa [sectionOf] using hj)
          · simpa using hWset j (by simpa [sectionOf] using hj)
          · simpa using hQset j (by simpa [sectionOf] using hj)
        · rw [← hrecs]
          simp [hSlen, hWlen, hQlen]
          omega

/-- A successful save presupposes every expected control of both variants was
set, and the saved batch holds exactly `1 + strengths + weaknesses +
questions` rows per variant, summed over both variants. -/
theorem submitAll_saved_shape (st : String → Option String) (user paperId : String)
    (raw53 raw55 : PyVal) (recs : List Record)
    (h : submitAll st user paperId raw53 raw55 = SubmitOutcome.saved recs) :
    expectedControlsSet st paperId "5_3" raw53 ∧
    expectedControlsSet st paperId "5_5" raw55 ∧
    recs.length =
      (1 + (parse_review (extractSubmit raw53)).strengths.length +
        (parse_review (extractSubmit raw53)).weaknesses.length +
        (parse_review (extractSubmit raw53)).questions.length) +
      (1 + (parse_review (extractSubmit raw55)).strengths.length +
        (parse_review (extractSubmit raw55)).weaknesses.length +
        (parse_review (extractSubmit raw55)).questions.length) := by
  unfold submitAll at h
  cases h1 : processVariant st user paperId "5_3" raw53 with
  | unsetSummary => rw [h1] at h; cases h
  | crash => rw [h1] at h; cases h
  | ok recs1 valid1 =>
      rw [h1] at h
      cases valid1 with
      | false => simp at h
      | true =>
          simp only [if_true] at h
          cases h2 : processVariant st user paperId "5_5" raw55 with
          | unsetSummary => rw [h2] at h; cases h
          | crash => rw [h2] at h; cases h
          | ok recs2 valid2 =>
              rw [h2] at h
              cases valid2 with
              | false => simp at h
              | true =>
                  simp only [if_true, SubmitOutcome.saved.injEq] at h
                  subst h
                  obtain ⟨hc1, hl1⟩ := processVariant_ok_valid st user paperId "5_3" raw53 recs1 h1
                  obtain ⟨hc2, hl2⟩ := processVariant_ok_valid st user paperId "5_5" raw55 recs2 h2
                  refine ⟨hc1, hc2, ?_⟩
                  simp [hl1, hl2]

/-- Atomicity apart from the raised-exception path: whenever some expected
control of either variant is not set, the submit block appends nothing to
the results log. -/
theorem submit_unset_appends_nothing (st : String → Option String)
    (user paperId : String) (raw53 raw55 : PyVal) (log : List Record)
    (hne : ¬ (expectedControlsSet st paperId "5_3" raw53 ∧
      expectedControlsSet st paperId "5_5" raw55)) :
    appendedRows log (submitAll st user paperId raw53 raw55) = log := by
  cases ho : submitAll st user paperId raw53 raw55 with
  | crash => rfl
  | incomplete => rfl
  | saved recs =>
      obtain ⟨hc1, hc2, _⟩ := submitAll_saved_shape st user paperId raw53 raw55 recs ho
      exact absurd ⟨hc1, hc2⟩ hne
